import Mathlib

/-!
# Verification of the dashcam video-evidence extraction pipeline

Shallow embedding of the asynchronous video-processing pipeline of the
`dashcam_backend` repository:

* `app/services/video_processor.py` — frame sampler (`extract_frames`),
* `app/services/ml_detector.py` — vehicle detector (`detect_vehicles`,
  `detect_vehicle_color`),
* `app/services/ocr_service.py` — plate reader (`read_plate_text`,
  `validate_plate_format`),
* `app/tasks/celery_tasks.py` — orchestrator (`process_incident_video`).

Machine-level effects (database session, numpy arrays, model inference)
are embedded as explicit data: images are lists of rows of rational RGB
pixels, fallible external calls are `Except Unit` values supplied as
oracle parameters, and the database session is a trace of events.
-/

set_option autoImplicit false

namespace Dashcam

/-! ## Frame sampler (`app/services/video_processor.py`)

`extract_frames` decodes all frames then keeps every `frame_interval`-th
one, where `frame_interval = int(video_fps / fps) if fps < video_fps
else 1`.  The decoded frame sequence is abstracted as a `List α`; the
counter loop `if frame_count % frame_interval == 0` is embedded by
`sampleLoop`.
-/

/-- The `while` loop of `extract_frames`: walks the decoded frames keeping
those whose running counter `cnt` satisfies `cnt % interval == 0`. -/
def sampleLoop {α : Type} (interval : Nat) : List α → Nat → List α
  | [], _ => []
  | f :: rest, cnt =>
    if cnt % interval = 0 then f :: sampleLoop interval rest (cnt + 1)
    else sampleLoop interval rest (cnt + 1)

/-- `VideoProcessor.extract_frames`, given the source frame rate
`video_fps`, the requested rate `fps`, and the decoded frame sequence.
`frame_interval = int(video_fps / fps) if fps < video_fps else 1`. -/
def extract_frames {α : Type} (video_fps fps : Nat) (frames : List α) : List α :=
  let frame_interval := if fps < video_fps then video_fps / fps else 1
  sampleLoop frame_interval frames 0

theorem sampleLoop_mod {α : Type} (k : Nat) (l : List α) (c : Nat) :
    sampleLoop k l c = sampleLoop k l (c % k) := by
  induction l generalizing c with
  | nil => rfl
  | cons a t ih =>
    have hmod : (c + 1) % k = (c % k + 1) % k := by
      conv_lhs => rw [Nat.add_mod]
      conv_rhs => rw [Nat.add_mod]
      simp
    simp only [sampleLoop, Nat.mod_mod_of_dvd c (dvd_refl k)]
    by_cases h : c % k = 0
    · simp only [h, if_true]
      rw [ih (c + 1), hmod, ← ih (c % k + 1), h]
    · simp only [h, if_false]
      rw [ih (c + 1), hmod, ← ih (c % k + 1)]

theorem sampleLoop_shift {α : Type} (k : Nat) (l : List α) (c : Nat)
    (hc : 1 ≤ c) (hck : c ≤ k) :
    sampleLoop k l c = sampleLoop k (l.drop (k - c)) 0 := by
  induction l generalizing c with
  | nil => simp [sampleLoop]
  | cons a t ih =>
    rcases Nat.lt_or_ge c k with hlt | hge
    · have hne : c % k ≠ 0 := by
        rw [Nat.mod_eq_of_lt hlt]; omega
      have hdrop : (a :: t).drop (k - c) = t.drop (k - (c + 1)) := by
        have h1 : k - c = (k - (c + 1)) + 1 := by omega
        rw [h1, List.drop_succ_cons]
      rw [hdrop, ← ih (c + 1) (by omega) (by omega)]
      simp [sampleLoop, hne]
    · have hck' : c = k := le_antisymm hck hge
      subst hck'
      have h0 : c % c = 0 := Nat.mod_self c
      simp only [sampleLoop, h0, if_true, Nat.sub_self, List.drop_zero,
        Nat.zero_mod]
      rw [sampleLoop_mod c t (c + 1), sampleLoop_mod c t 1]
      congr 1
      conv_lhs => rw [Nat.add_mod]
      simp

theorem sampleLoop_chunk {α : Type} (k : Nat) (hk : 1 ≤ k) (a : α) (t : List α) :
    sampleLoop k (a :: t) 0 = a :: sampleLoop k (t.drop (k - 1)) 0 := by
  simp only [sampleLoop, Nat.zero_mod, if_true]
  rw [sampleLoop_shift k t 1 le_rfl hk]

theorem sampleLoop_length {α : Type} (k : Nat) (hk : 1 ≤ k) :
    (l : List α) → (sampleLoop k l 0).length = (l.length + k - 1) / k
  | [] => by
    simp only [sampleLoop, List.length_nil, Nat.zero_add]
    rw [Nat.div_eq_of_lt (by omega)]
  | a :: t => by
    rw [sampleLoop_chunk k hk a t]
    have ih := sampleLoop_length k hk (t.drop (k - 1))
    simp only [List.length_cons, ih, List.length_drop]
    rcases Nat.lt_or_ge t.length k with hlt | hge
    · have h1 : t.length - (k - 1) + k - 1 < k := by omega
      have h2 : t.length + 1 + k - 1 = t.length + k := by omega
      rw [Nat.div_eq_of_lt h1, h2]
      have h3 : t.length + k = t.length % k + 1 * k := by
        rw [Nat.mod_eq_of_lt hlt]; ring
      rw [h3, Nat.add_mul_div_right _ _ (by omega : 0 < k),
        Nat.div_eq_of_lt (Nat.mod_lt _ (by omega))]
    · have h1 : t.length - (k - 1) + k - 1 = t.length := by omega
      have h2 : t.length + 1 + k - 1 = t.length + k := by omega
      rw [h1, h2, Nat.add_div_right _ (by omega : 0 < k)]
  termination_by l => l.length
  decreasing_by simp [List.length_drop]; omega

theorem sampleLoop_getElem? {α : Type} (k : Nat) (hk : 1 ≤ k) :
    (l : List α) → (j : Nat) → (sampleLoop k l 0)[j]? = l[j * k]?
  | [], j => by simp [sampleLoop]
  | a :: t, 0 => by
    rw [sampleLoop_chunk k hk a t]
    simp
  | a :: t, j + 1 => by
    rw [sampleLoop_chunk k hk a t]
    have ih := sampleLoop_getElem? k hk (t.drop (k - 1)) j
    have hmul : (j + 1) * k = (k - 1 + j * k) + 1 := by
      have h1 : (j + 1) * k = j * k + k := by ring
      omega
    rw [List.getElem?_cons_succ, ih, List.getElem?_drop, hmul,
      List.getElem?_cons_succ]
  termination_by l _ => l.length
  decreasing_by simp [List.length_drop]; omega

/-! ## Vehicle detector (`app/services/ml_detector.py`)

Frames and crops are lists of rows of RGB pixels with rational channel
values (numpy float arithmetic is embedded in `ℚ`).  The YOLO model is
embedded as an oracle: `modelLoaded` states whether `self.model` is set,
and `inference` is the flattened list of result boxes, where processing
any individual box may raise (an `Except.error` entry aborts the rest of
the result loop) and the inference call itself may raise.
-/

/-- An RGB pixel: per-channel values in channel order. -/
abbrev Pixel := ℚ × ℚ × ℚ

/-- An image: a list of pixel rows. -/
abbrev Image := List (List Pixel)

/-- `ndarray.size > 0` for an image: some row has a pixel. -/
def sizePos (img : Image) : Bool := img.any (fun row => !row.isEmpty)

/-- `MLDetector.detect_vehicle_color`.  Downsamples by stride 4 in both
axes (`cropped_image[::4, ::4]`, embedded by `sampleLoop 4`), averages
the remaining pixels per channel, and classifies by fixed thresholds.
The `pixels = []` branch embeds numpy's mean-of-empty `nan`, for which
every threshold comparison is false, so the chain falls through to
`"other"`. -/
def detect_vehicle_color (cropped : Image) : String :=
  if !sizePos cropped then "unknown"
  else
    let small := (sampleLoop 4 cropped 0).map (fun row => sampleLoop 4 row 0)
    let pixels := small.flatten
    if pixels.isEmpty then "other"
    else
      let n : ℚ := pixels.length
      let r := (pixels.map (fun p => p.1)).sum / n
      let g := (pixels.map (fun p => p.2.1)).sum / n
      let b := (pixels.map (fun p => p.2.2)).sum / n
      if r > 200 ∧ g > 200 ∧ b > 200 then "white"
      else if r < 50 ∧ g < 50 ∧ b < 50 then "black"
      else if r > 150 ∧ g < 100 ∧ b < 100 then "red"
      else if r < 100 ∧ g > 150 ∧ b < 100 then "green"
      else if r < 100 ∧ g < 100 ∧ b > 150 then "blue"
      else if r > 150 ∧ g > 150 ∧ b < 100 then "yellow"
      else if r > 100 ∧ g > 100 ∧ b > 100 then "gray"
      else "other"

/-- The classification chain of `detect_vehicle_color` as a function of
the three per-channel averages (the spec's "pure function of average
RGB"). -/
def classifyAvgColor (r g b : ℚ) : String :=
  if r > 200 ∧ g > 200 ∧ b > 200 then "white"
  else if r < 50 ∧ g < 50 ∧ b < 50 then "black"
  else if r > 150 ∧ g < 100 ∧ b < 100 then "red"
  else if r < 100 ∧ g > 150 ∧ b < 100 then "green"
  else if r < 100 ∧ g < 100 ∧ b > 150 then "blue"
  else if r > 150 ∧ g > 150 ∧ b < 100 then "yellow"
  else if r > 100 ∧ g > 100 ∧ b > 100 then "gray"
  else "other"

/-- The downsampled pixel list used by `detect_vehicle_color`. -/
def downsampledPixels (img : Image) : List Pixel :=
  ((sampleLoop 4 img 0).map (fun row => sampleLoop 4 row 0)).flatten

/-- Per-channel average of a pixel list (`pixels.mean(axis=0)`). -/
def avgChannel (f : Pixel → ℚ) (ps : List Pixel) : ℚ :=
  (ps.map f).sum / (ps.length : ℚ)

theorem detect_vehicle_color_eq_classify (img : Image)
    (hpos : sizePos img = true) (hne : downsampledPixels img ≠ []) :
    detect_vehicle_color img =
      classifyAvgColor (avgChannel (fun p => p.1) (downsampledPixels img))
        (avgChannel (fun p => p.2.1) (downsampledPixels img))
        (avgChannel (fun p => p.2.2) (downsampledPixels img)) := by
  unfold detect_vehicle_color classifyAvgColor downsampledPixels avgChannel
  simp only [hpos, Bool.not_true, Bool.false_eq_true, if_false]
  rw [if_neg]
  case hnc => simpa [downsampledPixels, List.isEmpty_iff] using hne

/-- Axis-aligned bounding box, `{x1, y1, x2, y2}` in pixel coordinates. -/
structure BBox where
  x1 : Int
  y1 : Int
  x2 : Int
  y2 : Int
deriving DecidableEq, Repr

/-- One raw result box from the YOLO model: class id, confidence, and
`xyxy` coordinates (already truncated to integers by `int(...)`). -/
structure RawBox where
  cls : Nat
  conf : ℚ
  x1 : Int
  y1 : Int
  x2 : Int
  y2 : Int
deriving DecidableEq, Repr

/-- `MLDetector.VEHICLE_CLASSES`: COCO class ids of the vehicle set. -/
def VEHICLE_CLASSES (c : Nat) : Option String :=
  if c = 2 then some "car"
  else if c = 3 then some "motorcycle"
  else if c = 5 then some "bus"
  else if c = 7 then some "truck"
  else none

/-- Numpy slice `frame[y1:y2, x1:x2]` on an in-bounds, non-negative box. -/
def cropImage (frame : Image) (y1 y2 x1 x2 : Int) : Image :=
  ((frame.drop y1.toNat).take (y2 - y1).toNat).map
    (fun row => (row.drop x1.toNat).take (x2 - x1).toNat)

/-- One detection dictionary produced by `detect_vehicles`. -/
structure Detection where
  vehicle_type : String
  confidence : ℚ
  bounding_box : BBox
  color : Option String
deriving DecidableEq, Repr

/-- The body of `detect_vehicles`' box loop for one raw box: keep it only
if its class id maps into `VEHICLE_CLASSES` and its confidence reaches
`confidence_threshold`; annotate with a dominant color when the crop is
non-empty. -/
def procBox (frame : Image) (thr : ℚ) (b : RawBox) : Option Detection :=
  match VEHICLE_CLASSES b.cls with
  | none => none
  | some vt =>
    if thr ≤ b.conf then
      let cropped := cropImage frame b.y1 b.y2 b.x1 b.x2
      some { vehicle_type := vt, confidence := b.conf,
             bounding_box := ⟨b.x1, b.y1, b.x2, b.y2⟩,
             color := if sizePos cropped then some (detect_vehicle_color cropped)
                      else none }
    else none

/-- The box loop of `detect_vehicles` under its `try`: an `Except.error`
entry means processing that box raised, which aborts the loop; the
`detections` accumulated so far are still returned. -/
def detGo (frame : Image) (thr : ℚ) : List (Except Unit RawBox) → List Detection
  | [] => []
  | .error _ :: _ => []
  | .ok b :: rest =>
    match procBox frame thr b with
    | some d => d :: detGo frame thr rest
    | none => detGo frame thr rest

/-- `MLDetector.detect_vehicles`.  `modelLoaded` embeds `self.model is
not None`; `inference` is the oracle for `self.model(frame)` (its
`Except.error` case embeds an inference-time exception, caught by the
`try`). -/
def detect_vehicles (modelLoaded : Bool) (frame : Image)
    (inference : Except Unit (List (Except Unit RawBox))) (thr : ℚ) :
    List Detection :=
  if !modelLoaded then []
  else
    match inference with
    | .error _ => []
    | .ok boxes => detGo frame thr boxes

/-- The boxes processed before the first raising entry. -/
def okBoxes : List (Except Unit RawBox) → List RawBox
  | [] => []
  | .error _ :: _ => []
  | .ok b :: rest => b :: okBoxes rest

/-- Exception-free processing of a list of raw boxes. -/
def detectPure (frame : Image) (thr : ℚ) (boxes : List RawBox) : List Detection :=
  boxes.filterMap (procBox frame thr)

theorem detGo_eq_pure (frame : Image) (thr : ℚ) :
    ∀ bs : List (Except Unit RawBox),
      detGo frame thr bs = detectPure frame thr (okBoxes bs)
  | [] => rfl
  | .error _ :: rest => rfl
  | .ok b :: rest => by
    simp only [detGo, okBoxes, detectPure, List.filterMap_cons]
    rcases h : procBox frame thr b with _ | d <;>
      simp [h, detGo_eq_pure frame thr rest, detectPure]

theorem procBox_post (frame : Image) (thr : ℚ) (b : RawBox) (d : Detection)
    (h : procBox frame thr b = some d) :
    thr ≤ d.confidence ∧
      (d.vehicle_type = "car" ∨ d.vehicle_type = "motorcycle" ∨
        d.vehicle_type = "bus" ∨ d.vehicle_type = "truck") := by
  unfold procBox at h
  cases hcls : VEHICLE_CLASSES b.cls with
  | none => rw [hcls] at h; simp at h
  | some vt =>
    rw [hcls] at h
    dsimp only [] at h
    by_cases hconf : thr ≤ b.conf
    · rw [if_pos hconf] at h
      simp only [Option.some.injEq] at h
      subst h
      refine ⟨hconf, ?_⟩
      unfold VEHICLE_CLASSES at hcls
      split_ifs at hcls <;> simp_all
    · rw [if_neg hconf] at h; simp at h

/-! ## OCR service (`app/services/ocr_service.py`)

Recognized text is embedded as `List Char`.  The EasyOCR backend is an
oracle: each `readtext` call yields a list of `(bbox, text, confidence)`
results, or raises (`Except.error`, caught by the function's handler).
-/

/-- The character class `[A-Z]`. -/
def isUpperAlpha (c : Char) : Bool := 'A' ≤ c && c ≤ 'Z'

/-- The character class `[0-9]`. -/
def isDigitChar (c : Char) : Bool := '0' ≤ c && c ≤ '9'

/-- The character class `[A-Z0-9]`. -/
def isPlateAlnum (c : Char) : Bool := isUpperAlpha c || isDigitChar c

/-- Full match of `^[A-Z]{2,3}[0-9]{3,4}$` (e.g. `AB1234`, `ABC1234`).
Because the two classes are disjoint, the leading letter block is exactly
the maximal `isUpperAlpha` run. -/
def patternLettersDigits (t : List Char) : Bool :=
  let letters := t.takeWhile isUpperAlpha
  let digits := t.drop letters.length
  (letters.length = 2 || letters.length = 3) &&
    (digits.length = 3 || digits.length = 4) && digits.all isDigitChar

/-- Full match of `^[0-9]{3}[A-Z]{3}$` (e.g. `123ABC`). -/
def patternDigitsLetters (t : List Char) : Bool :=
  let digits := t.takeWhile isDigitChar
  let letters := t.drop digits.length
  digits.length = 3 && letters.length = 3 && letters.all isUpperAlpha

/-- Full match of `^[A-Z0-9]{5,8}$` (generic alphanumeric). -/
def patternGeneric (t : List Char) : Bool :=
  t.all isPlateAlnum && 5 ≤ t.length && t.length ≤ 8

/-- `OCRService.validate_plate_format`. -/
def validate_plate_format (t : List Char) : Bool :=
  if t.length < 2 || t.length > 10 then false
  else if !(t.any isPlateAlnum) then false
  else if !(t.any isDigitChar) then false
  else if patternLettersDigits t || patternDigitsLetters t || patternGeneric t then
    true
  else t.any isUpperAlpha && t.any isDigitChar

/-- The normalization in `read_plate_text`:
`text.upper().replace(" ", "").replace("-", "")`. -/
def normalizePlate (t : List Char) : List Char :=
  ((t.map Char.toUpper).filter (fun c => c ≠ ' ')).filter (fun c => c ≠ '-')

/-- One EasyOCR `readtext` result: corner points, text, confidence. -/
structure OCRItem where
  points : List (Int × Int)
  text : List Char
  conf : ℚ
deriving DecidableEq, Repr

/-- `max(results, key=lambda x: x[2])`: the first result of maximal
confidence (Python `max` keeps the current maximum on ties). -/
def bestItem (r : OCRItem) (rs : List OCRItem) : OCRItem :=
  rs.foldl (fun best x => if x.conf > best.conf then x else best) r

/-- Bounding box of a non-empty point list:
`(min xs, min ys, max xs, max ys)`. -/
def boxFromPoints (p0 : Int × Int) (ps : List (Int × Int)) : BBox :=
  ⟨(ps.map Prod.fst).foldl min p0.1, (ps.map Prod.snd).foldl min p0.2,
   (ps.map Prod.fst).foldl max p0.1, (ps.map Prod.snd).foldl max p0.2⟩

/-- A successful plate read as returned by `read_plate_text`. -/
structure PlateResult where
  plate_number : List Char
  confidence : ℚ
  bounding_box : BBox
deriving DecidableEq, Repr

/-- `OCRService.read_plate_text`.  `readerLoaded` embeds `self.reader is
not None`, `imageSizePos` embeds `plate_image.size > 0`, and `ocr` is
the oracle for `self.reader.readtext(plate_image)` on this crop.  An
empty point list on the best result makes `min()` raise, which the
handler turns into `None`. -/
def read_plate_text (readerLoaded : Bool) (imageSizePos : Bool)
    (ocr : Except Unit (List OCRItem)) : Option PlateResult :=
  if !readerLoaded || !imageSizePos then none
  else
    match ocr with
    | .error _ => none
    | .ok [] => none
    | .ok (r :: rs) =>
      let best := bestItem r rs
      let text := normalizePlate best.text
      if !validate_plate_format text then none
      else
        match best.points with
        | [] => none
        | p0 :: ps =>
          some { plate_number := text, confidence := best.conf,
                 bounding_box := boxFromPoints p0 ps }

theorem toUpper_not_lower (c : Char) : (Char.toUpper c).isLower = false := by
  have hdef : Char.toUpper c =
      if c.toNat ≥ 97 ∧ c.toNat ≤ 122 then Char.ofNat (c.toNat - 32) else c := rfl
  rw [hdef]
  split
  next h =>
    obtain ⟨h1, h2⟩ := h
    generalize hn : c.toNat = n at h1 h2 ⊢
    interval_cases n <;> decide
  next h =>
    simp only [Char.isLower]
    rw [Bool.and_eq_false_iff]
    by_cases h97 : 97 ≤ c.toNat
    · right
      simp only [decide_eq_false_iff_not]
      intro hle
      exact h ⟨h97, hle⟩
    · left
      simp only [decide_eq_false_iff_not]
      intro hle
      exact h97 hle

theorem patternLettersDigits_hasUpper (t : List Char)
    (h : patternLettersDigits t = true) : t.any isUpperAlpha = true := by
  unfold patternLettersDigits at h
  simp only [Bool.and_eq_true, Bool.or_eq_true, decide_eq_true_eq] at h
  obtain ⟨⟨hL, _⟩, _⟩ := h
  have hne : t.takeWhile isUpperAlpha ≠ [] := by
    intro he
    rw [he] at hL
    simp at hL
  have hmem := List.head_mem hne
  exact List.any_eq_true.mpr
    ⟨_, (List.takeWhile_sublist isUpperAlpha).subset hmem,
      List.mem_takeWhile_imp hmem⟩

theorem patternDigitsLetters_hasUpper (t : List Char)
    (h : patternDigitsLetters t = true) : t.any isUpperAlpha = true := by
  unfold patternDigitsLetters at h
  simp only [Bool.and_eq_true, decide_eq_true_eq] at h
  obtain ⟨⟨_, hL⟩, hall⟩ := h
  have hne : t.drop (t.takeWhile isDigitChar).length ≠ [] := by
    intro he
    rw [he] at hL
    simp at hL
  have hmem := List.head_mem hne
  exact List.any_eq_true.mpr
    ⟨_, List.drop_subset _ t hmem, (List.all_eq_true.mp hall) _ hmem⟩

theorem validate_plate_format_spec (t : List Char)
    (h : validate_plate_format t = true) :
    2 ≤ t.length ∧ t.length ≤ 10 ∧ t.any isDigitChar = true ∧
      (t.any isUpperAlpha = true ∨ patternGeneric t = true) := by
  unfold validate_plate_format at h
  by_cases h1 : (t.length < 2 || t.length > 10) = true
  · rw [if_pos h1] at h; exact absurd h (by simp)
  · rw [if_neg h1] at h
    by_cases h2 : (!t.any isPlateAlnum) = true
    · rw [if_pos h2] at h; exact absurd h (by simp)
    · rw [if_neg h2] at h
      by_cases h3 : (!t.any isDigitChar) = true
      · rw [if_pos h3] at h; exact absurd h (by simp)
      · rw [if_neg h3] at h
        simp only [Bool.or_eq_true, decide_eq_true_eq, not_or, not_lt] at h1
        have hdig : t.any isDigitChar = true := by simpa using h3
        refine ⟨by omega, by omega, hdig, ?_⟩
        by_cases h4 : (patternLettersDigits t || patternDigitsLetters t ||
            patternGeneric t) = true
        · rcases (Bool.or_eq_true _ _).mp h4 with h5 | h5
          · rcases (Bool.or_eq_true _ _).mp h5 with h6 | h6
            · exact Or.inl (patternLettersDigits_hasUpper t h6)
            · exact Or.inl (patternDigitsLetters_hasUpper t h6)
          · exact Or.inr h5
        · rw [if_neg h4] at h
          rw [Bool.and_eq_true] at h
          exact Or.inl h.1

theorem normalizePlate_clean (t : List Char) (c : Char)
    (hc : c ∈ normalizePlate t) : c.isLower = false ∧ c ≠ ' ' ∧ c ≠ '-' := by
  unfold normalizePlate at hc
  rw [List.mem_filter] at hc
  obtain ⟨hc2, hdash⟩ := hc
  rw [List.mem_filter] at hc2
  obtain ⟨hc3, hsp⟩ := hc2
  rw [List.mem_map] at hc3
  obtain ⟨c0, _, rfl⟩ := hc3
  exact ⟨toUpper_not_lower c0, by simpa using hsp, by simpa using hdash⟩

theorem read_plate_text_some (readerLoaded imageSizePos : Bool)
    (ocr : Except Unit (List OCRItem)) (res : PlateResult)
    (h : read_plate_text readerLoaded imageSizePos ocr = some res) :
    ∃ r rs p0 ps, ocr = .ok (r :: rs) ∧ (bestItem r rs).points = p0 :: ps ∧
      res.plate_number = normalizePlate (bestItem r rs).text ∧
      res.confidence = (bestItem r rs).conf ∧
      res.bounding_box = boxFromPoints p0 ps ∧
      validate_plate_format (normalizePlate (bestItem r rs).text) = true := by
  unfold read_plate_text at h
  by_cases hr : (!readerLoaded || !imageSizePos) = true
  · rw [if_pos hr] at h; simp at h
  · rw [if_neg hr] at h
    rcases ocr with e | items
    · simp at h
    · rcases items with _ | ⟨r, rs⟩
      · simp at h
      · dsimp only [] at h
        by_cases hv :
            (!validate_plate_format (normalizePlate (bestItem r rs).text)) = true
        · rw [if_pos hv] at h; simp at h
        · rw [if_neg hv] at h
          have hval :
              validate_plate_format (normalizePlate (bestItem r rs).text) = true := by
            simpa using hv
          rcases hp : (bestItem r rs).points with _ | ⟨p0, ps⟩
          · rw [hp] at h; simp at h
          · rw [hp] at h
            simp only [Option.some.injEq] at h
            subst h
            exact ⟨r, rs, p0, ps, rfl, hp, rfl, rfl, rfl, hval⟩

/-- **C4** (amended).  Plate-text postcondition: every non-`None` result
of `read_plate_text` has normalized text of length 2–10 containing no
lowercase letter, no space and no hyphen, at least one digit, and either
at least one uppercase letter or a full match of the generic 5–8
character alphanumeric pattern `^[A-Z0-9]{5,8}$`.  (The original claim's
"contains at least one letter" fails: the generic pattern accepts
all-digit strings, see `read_plate_text_no_letter_counterexample`.) -/
theorem read_plate_text_post (readerLoaded imageSizePos : Bool)
    (ocr : Except Unit (List OCRItem)) (res : PlateResult)
    (h : read_plate_text readerLoaded imageSizePos ocr = some res) :
    2 ≤ res.plate_number.length ∧ res.plate_number.length ≤ 10 ∧
      (∀ c ∈ res.plate_number, c.isLower = false ∧ c ≠ ' ' ∧ c ≠ '-') ∧
      res.plate_number.any isDigitChar = true ∧
      (res.plate_number.any isUpperAlpha = true ∨
        patternGeneric res.plate_number = true) := by
  obtain ⟨r, rs, p0, ps, -, -, htext, -, -, hval⟩ :=
    read_plate_text_some readerLoaded imageSizePos ocr res h
  rw [htext] at *
  obtain ⟨h1, h2, h3, h4⟩ := validate_plate_format_spec _ hval
  exact ⟨h1, h2, fun c hc => normalizePlate_clean _ c hc, h3, h4⟩

/-- Witness for **C4**: the raw OCR text `"ab-1 23"` is normalized to
`AB123` and returned, and the postcondition holds for it. -/
theorem read_plate_text_post_witness :
    2 ≤ ("AB123".toList).length ∧ ("AB123".toList).length ≤ 10 ∧
      (∀ c ∈ "AB123".toList, c.isLower = false ∧ c ≠ ' ' ∧ c ≠ '-') ∧
      ("AB123".toList).any isDigitChar = true ∧
      (("AB123".toList).any isUpperAlpha = true ∨
        patternGeneric "AB123".toList = true) :=
  read_plate_text_post true true
    (.ok [⟨[(0, 0), (5, 0), (5, 2), (0, 2)], "ab-1 23".toList, 4/5⟩])
    ⟨"AB123".toList, 4/5, ⟨0, 0, 5, 2⟩⟩ rfl

/-- **C4** counterexample: the all-digit OCR read `"55555"` passes the
generic pattern of `validate_plate_format` and is returned even though
it contains no letter, refuting the claim's "contains at least one
letter" conjunct. -/
theorem read_plate_text_no_letter_counterexample :
    read_plate_text true true
        (.ok [⟨[(0, 0), (10, 0), (10, 4), (0, 4)], "55555".toList, 9/10⟩]) =
      some ⟨"55555".toList, 9/10, ⟨0, 0, 10, 4⟩⟩ ∧
    ("55555".toList).any isUpperAlpha = false := ⟨rfl, rfl⟩

theorem detGo_post (frame : Image) (thr : ℚ) :
    ∀ (bs : List (Except Unit RawBox)) (d : Detection),
      d ∈ detGo frame thr bs →
      thr ≤ d.confidence ∧
        (d.vehicle_type = "car" ∨ d.vehicle_type = "motorcycle" ∨
          d.vehicle_type = "bus" ∨ d.vehicle_type = "truck")
  | [], d, hd => by simp [detGo] at hd
  | .error _ :: rest, d, hd => by simp [detGo] at hd
  | .ok b :: rest, d, hd => by
    simp only [detGo] at hd
    rcases hpb : procBox frame thr b with _ | d0 <;> rw [hpb] at hd
    · exact detGo_post frame thr rest d hd
    · rcases List.mem_cons.mp hd with rfl | hmem
      · exact procBox_post frame thr b d hpb
      · exact detGo_post frame thr rest d hmem

/-- **C7**.  Vehicle-detector postcondition: every detection returned by
`detect_vehicles` has confidence at least the configured threshold and a
vehicle type in the closed set `{car, motorcycle, bus, truck}` (class
labels outside `VEHICLE_CLASSES` are dropped by `procBox`, not an
error). -/
theorem detect_vehicles_post (modelLoaded : Bool) (frame : Image)
    (inference : Except Unit (List (Except Unit RawBox))) (thr : ℚ)
    (d : Detection) (hd : d ∈ detect_vehicles modelLoaded frame inference thr) :
    thr ≤ d.confidence ∧
      (d.vehicle_type = "car" ∨ d.vehicle_type = "motorcycle" ∨
        d.vehicle_type = "bus" ∨ d.vehicle_type = "truck") := by
  unfold detect_vehicles at hd
  cases modelLoaded with
  | false => simp at hd
  | true =>
    rcases inference with e | boxes
    · simp at hd
    · exact detGo_post frame thr boxes d (by simpa using hd)

/-- Witness for **C7**: a class-2 (car) box of confidence 1 at threshold
0 is returned and satisfies the postcondition. -/
theorem detect_vehicles_post_witness :
    (0 : ℚ) ≤ (1 : ℚ) ∧
      (("car" : String) = "car" ∨ ("car" : String) = "motorcycle" ∨
        ("car" : String) = "bus" ∨ ("car" : String) = "truck") :=
  detect_vehicles_post true [] (.ok [.ok ⟨2, 1, 0, 0, 1, 1⟩]) 0
    ⟨"car", 1, ⟨0, 0, 1, 1⟩, none⟩
    (by rw [show detect_vehicles true [] (.ok [.ok ⟨2, 1, 0, 0, 1, 1⟩]) 0 =
          [⟨"car", 1, ⟨0, 0, 1, 1⟩, none⟩] from rfl]
        exact List.mem_singleton.mpr rfl)

/-- **C8** (amended).  Detector graceful degradation: with the model
unavailable `detect_vehicles` returns `[]`; an exception is never
propagated, and the result equals the exception-free processing of the
boxes that precede the first raising entry — so an inference-time
exception yields `[]`, while an exception during result processing keeps
the detections accumulated before it (the original claim's "treated as
yielding no detections" fails in that case, see
`detect_vehicles_kept_rows_counterexample`). -/
theorem detect_vehicles_degradation :
    (∀ (frame : Image) (inference : Except Unit (List (Except Unit RawBox)))
        (thr : ℚ), detect_vehicles false frame inference thr = []) ∧
    (∀ (frame : Image) (e : Unit) (thr : ℚ),
        detect_vehicles true frame (.error e) thr = []) ∧
    (∀ (frame : Image) (boxes : List (Except Unit RawBox)) (thr : ℚ),
        detect_vehicles true frame (.ok boxes) thr =
          detectPure frame thr (okBoxes boxes)) :=
  ⟨fun _ _ _ => rfl, fun _ _ _ => rfl,
    fun frame boxes thr => detGo_eq_pure frame thr boxes⟩

/-- **C8** counterexample: a raising entry after a valid car box does not
make the call yield "no detections" — the car detection accumulated
before the exception is returned. -/
theorem detect_vehicles_kept_rows_counterexample :
    detect_vehicles true [] (.ok [.ok ⟨2, 1, 0, 0, 1, 1⟩, .error ()]) 0 ≠ [] := by
  rw [show detect_vehicles true [] (.ok [.ok ⟨2, 1, 0, 0, 1, 1⟩, .error ()]) 0 =
    [⟨"car", 1, ⟨0, 0, 1, 1⟩, none⟩] from rfl]
  exact List.cons_ne_nil _ _

/-- **C9** (amended).  Dominant-color classification is the fixed
threshold chain `classifyAvgColor` applied to the per-channel averages
of the stride-4-downsampled crop, and on averages `(210,215,220)` it
returns `"white"`, on `(10,10,10)` `"black"`, on `(180,60,50)` `"red"`,
and on `(120,120,0)` `"other"` (not `"yellow"` as claimed: yellow
requires `r > 150 ∧ g > 150 ∧ b < 100`, see
`detect_vehicle_color_yellow_counterexample`). -/
theorem detect_vehicle_color_reference_values :
    (∀ img : Image, sizePos img = true → downsampledPixels img ≠ [] →
        detect_vehicle_color img =
          classifyAvgColor (avgChannel (fun p => p.1) (downsampledPixels img))
            (avgChannel (fun p => p.2.1) (downsampledPixels img))
            (avgChannel (fun p => p.2.2) (downsampledPixels img))) ∧
    detect_vehicle_color [[(210, 215, 220)]] = "white" ∧
    detect_vehicle_color [[(10, 10, 10)]] = "black" ∧
    detect_vehicle_color [[(180, 60, 50)]] = "red" ∧
    detect_vehicle_color [[(120, 120, 0)]] = "other" := by
  refine ⟨detect_vehicle_color_eq_classify, ?_, ?_, ?_, ?_⟩ <;>
    norm_num [detect_vehicle_color, sizePos, sampleLoop]

/-- Witness for **C9**: the purity clause applied to the concrete
one-pixel image `[[(210,215,220)]]`. -/
theorem detect_vehicle_color_reference_values_witness :
    detect_vehicle_color [[(210, 215, 220)]] =
      classifyAvgColor
        (avgChannel (fun p => p.1) (downsampledPixels [[(210, 215, 220)]]))
        (avgChannel (fun p => p.2.1) (downsampledPixels [[(210, 215, 220)]]))
        (avgChannel (fun p => p.2.2) (downsampledPixels [[(210, 215, 220)]])) :=
  detect_vehicle_color_reference_values.1 [[(210, 215, 220)]]
    (by decide) (by decide)

/-- **C9** counterexample: on average channel values `(120,120,0)` the
classifier returns `"other"`, not `"yellow"` as the claim states. -/
theorem detect_vehicle_color_yellow_counterexample :
    detect_vehicle_color [[(120, 120, 0)]] ≠ "yellow" := by
  norm_num [detect_vehicle_color, sizePos, sampleLoop]
  decide

/-! ## Orchestrator (`app/tasks/celery_tasks.py`)

`process_incident_video` is embedded as a function from oracle inputs to
the trace of database effects it performs, in order: status writes and
row inserts.  The database session is total (persistence succeeds); the
fallible steps of the pipeline — frame extraction, per-frame vehicle
detection, each per-vehicle plate unit, the whole-frame plate block —
are oracles whose `Except.error` embeds a raised exception at that
point, reproducing exactly the `try/except` nesting of the source:

* an extraction error sets the status to `failed` and ends the run;
* a detection error skips that frame entirely (the per-frame `except`);
* a per-vehicle OCR error skips only that vehicle's plate unit (the
  inner `except`), keeping the vehicle row added before it;
* a region OCR error aborts the rest of the whole-frame block (its
  single `except` wraps the whole region loop), keeping rows already
  added;
* a thumbnail failure is caught and has no effect on the trace, so it
  does not appear as an oracle.

Row identifiers (`uuid4` in the source) are embedded as a counter
threaded through the run: distinct rows get distinct identifiers. -/

/-- `Incident.processing_status` values. -/
inductive Status where
  | pending
  | processing
  | completed
  | failed
deriving DecidableEq, Repr

/-- A `DetectedVehicle` row as created by the orchestrator. -/
structure VehicleRow where
  detection_id : Nat
  vehicle_type : String
  make : Option String
  model : Option String
  color : Option String
  confidence : ℚ
  bounding_box : BBox
  frame_timestamp : Nat
deriving DecidableEq, Repr

/-- A `LicensePlate` row as created by the orchestrator
(`state_region` and `country` are always `None` and omitted). -/
structure PlateRow where
  plate_id : Nat
  detection_id : Option Nat
  plate_number : List Char
  confidence : ℚ
  frame_timestamp : Nat
  bounding_box : BBox
deriving DecidableEq, Repr

/-- One database effect of the run. -/
inductive Event where
  | setStatus (s : Status)
  | addVehicle (v : VehicleRow)
  | addPlate (p : PlateRow)
deriving DecidableEq, Repr

/-- `crop.size > 0` as a function of the slice bounds (for an in-bounds
box): both slice ranges are non-degenerate. -/
def cropPos (b : BBox) : Bool := b.x1 < b.x2 && b.y1 < b.y2

/-- Oracle for the fallible work on one frame. `vehicleOCR k` is the
per-vehicle plate unit for the `k`-th detection (crop plus `readtext`
results); `locate` is `detect_license_plate`'s region list; `regionOCR
k` is the crop plus `readtext` results for the `k`-th located region. -/
structure FrameOracle where
  detect : Except Unit (List Detection)
  vehicleOCR : Nat → Except Unit (List OCRItem)
  locate : Except Unit (List BBox)
  regionOCR : Nat → Except Unit (List OCRItem)

/-- The `DetectedVehicle` row built from one detection of frame `i`
(`make`/`model` are absent from detector dictionaries, so `.get`
yields `None`). -/
def mkVRow (c : Nat) (i : Nat) (d : Detection) : VehicleRow :=
  { detection_id := c, vehicle_type := d.vehicle_type, make := none,
    model := none, color := d.color, confidence := d.confidence,
    bounding_box := d.bounding_box, frame_timestamp := i }

/-- One iteration of the vehicle loop: add the vehicle row, then the
inner `try` around crop + `read_plate_text`; a raised unit or a failed
read leaves just the vehicle row. -/
def vehicleUnit (ra : Bool) (o : FrameOracle) (i k c : Nat)
    (d : Detection) : List Event × Nat :=
  let vrow := mkVRow c i d
  match o.vehicleOCR k with
  | .error _ => ([Event.addVehicle vrow], c + 1)
  | .ok items =>
    if cropPos d.bounding_box then
      match read_plate_text ra true (.ok items) with
      | some p =>
        let prow : PlateRow :=
          { plate_id := c + 1, detection_id := some c,
            plate_number := p.plate_number, confidence := p.confidence,
            frame_timestamp := i, bounding_box := p.bounding_box }
        ([Event.addVehicle vrow, Event.addPlate prow], c + 2)
      | none => ([Event.addVehicle vrow], c + 1)
    else ([Event.addVehicle vrow], c + 1)

/-- The `for detection in vehicle_detections` loop. -/
def vehicleLoop (ra : Bool) (o : FrameOracle) (i : Nat) :
    List Detection → Nat → Nat → List Event × Nat
  | [], _, c => ([], c)
  | d :: rest, k, c =>
    let u := vehicleUnit ra o i k c d
    let w := vehicleLoop ra o i rest (k + 1) u.2
    (u.1 ++ w.1, w.2)

/-- The `for plate_det in plate_detections` loop of the whole-frame
block: a raising region unit aborts the remaining regions (the block's
single `except`), keeping earlier rows. -/
def regionLoop (ra : Bool) (o : FrameOracle) (i : Nat) :
    List BBox → Nat → Nat → List Event × Nat
  | [], _, c => ([], c)
  | b :: rest, k, c =>
    match o.regionOCR k with
    | .error _ => ([], c)
    | .ok items =>
      if cropPos b then
        match read_plate_text ra true (.ok items) with
        | some p =>
          let prow : PlateRow :=
            { plate_id := c, detection_id := none,
              plate_number := p.plate_number, confidence := p.confidence,
              frame_timestamp := i, bounding_box := p.bounding_box }
          let w := regionLoop ra o i rest (k + 1) (c + 1)
          (Event.addPlate prow :: w.1, w.2)
        | none => regionLoop ra o i rest (k + 1) c
      else regionLoop ra o i rest (k + 1) c

/-- The whole-frame plate block: `detect_license_plate` returns `[]`
when the reader is unavailable; a raising locator aborts the block. -/
def generalBlock (ra : Bool) (o : FrameOracle) (i c : Nat) : List Event × Nat :=
  if ra then
    match o.locate with
    | .error _ => ([], c)
    | .ok regions => regionLoop ra o i regions 0 c
  else ([], c)

/-- All effects of one frame: a raised detection step skips the whole
frame body (vehicle loop and whole-frame block). -/
def frameEvents (ra : Bool) (o : FrameOracle) (i c : Nat) : List Event × Nat :=
  match o.detect with
  | .error _ => ([], c)
  | .ok ds =>
    let u := vehicleLoop ra o i ds 0 c
    let w := generalBlock ra o i u.2
    (u.1 ++ w.1, w.2)

/-- The `for frame_idx, frame in enumerate(frames)` loop, processing
`m` frames starting at index `s` with id counter `c`. -/
def runFrames (ra : Bool) (oracles : Nat → FrameOracle) :
    Nat → Nat → Nat → List Event
  | _, 0, _ => []
  | s, m + 1, c =>
    let u := frameEvents ra (oracles s) s c
    u.1 ++ runFrames ra oracles (s + 1) m u.2

/-- `process_incident_video`, as the trace of database effects of one
run.  `incidentFound` embeds the initial incident query; `extraction`
embeds `extract_frames` (`.ok n` = `n` frames extracted, `.error` =
raised); `ra` embeds OCR-reader availability. -/
def process_incident_video (incidentFound : Bool)
    (extraction : Except Unit Nat) (ra : Bool)
    (oracles : Nat → FrameOracle) : List Event :=
  if incidentFound then
    Event.setStatus Status.processing ::
      (match extraction with
       | .error _ => [Event.setStatus Status.failed]
       | .ok n =>
         runFrames ra oracles 0 n 0 ++ [Event.setStatus Status.completed])
  else []

/-- The `DetectedVehicle` rows of a trace. -/
def vehicleRows (tr : List Event) : List VehicleRow :=
  tr.filterMap fun e =>
    match e with
    | .addVehicle v => some v
    | _ => none

/-- The `LicensePlate` rows of a trace. -/
def plateRows (tr : List Event) : List PlateRow :=
  tr.filterMap fun e =>
    match e with
    | .addPlate p => some p
    | _ => none

/-- The sequence of status values written by a trace. -/
def statusList (tr : List Event) : List Status :=
  tr.filterMap fun e =>
    match e with
    | .setStatus s => some s
    | _ => none

/-- The incident's status after a trace (initially `pending`). -/
def statusAt (tr : List Event) : Status :=
  tr.foldl
    (fun st e =>
      match e with
      | .setStatus s => s
      | _ => st)
    Status.pending

/-- Row-insertion events (as opposed to status writes). -/
def isAddEvent : Event → Bool
  | .setStatus _ => false
  | .addVehicle _ => true
  | .addPlate _ => true

theorem vehicleUnit_adds (ra : Bool) (o : FrameOracle) (i k c : Nat)
    (d : Detection) : ∀ e ∈ (vehicleUnit ra o i k c d).1, isAddEvent e = true := by
  intro e he
  unfold vehicleUnit at he
  split at he
  · simp at he; subst he; rfl
  · split at he
    · split at he
      · simp at he
        rcases he with rfl | rfl <;> rfl
      · simp at he; subst he; rfl
    · simp at he; subst he; rfl

theorem regionLoop_adds (ra : Bool) (o : FrameOracle) (i : Nat) :
    ∀ (rg : List BBox) (k c : Nat),
      ∀ e ∈ (regionLoop ra o i rg k c).1, isAddEvent e = true
  | [], k, c => by intro e he; simp [regionLoop] at he
  | b :: rest, k, c => by
    intro e he
    unfold regionLoop at he
    split at he
    · simp at he
    · split at he
      · split at he
        · simp only [] at he
          rcases List.mem_cons.mp he with rfl | hmem
          · rfl
          · exact regionLoop_adds ra o i rest (k + 1) (c + 1) e hmem
        · exact regionLoop_adds ra o i rest (k + 1) c e he
      · exact regionLoop_adds ra o i rest (k + 1) c e he

theorem vehicleLoop_adds (ra : Bool) (o : FrameOracle) (i : Nat) :
    ∀ (ds : List Detection) (k c : Nat),
      ∀ e ∈ (vehicleLoop ra o i ds k c).1, isAddEvent e = true
  | [], k, c => by intro e he; simp [vehicleLoop] at he
  | d :: rest, k, c => by
    intro e he
    simp only [vehicleLoop] at he
    rcases List.mem_append.mp he with h | h
    · exact vehicleUnit_adds ra o i k c d e h
    · exact vehicleLoop_adds ra o i rest (k + 1) _ e h

theorem generalBlock_adds (ra : Bool) (o : FrameOracle) (i c : Nat) :
    ∀ e ∈ (generalBlock ra o i c).1, isAddEvent e = true := by
  intro e he
  unfold generalBlock at he
  split at he
  · split at he
    · simp at he
    · exact regionLoop_adds ra o i _ 0 c e he
  · simp at he

theorem frameEvents_adds (ra : Bool) (o : FrameOracle) (i c : Nat) :
    ∀ e ∈ (frameEvents ra o i c).1, isAddEvent e = true := by
  intro e he
  unfold frameEvents at he
  split at he
  · simp at he
  · simp only [] at he
    rcases List.mem_append.mp he with h | h
    · exact vehicleLoop_adds ra o i _ 0 c e h
    · exact generalBlock_adds ra o i _ e h

theorem runFrames_adds (ra : Bool) (oracles : Nat → FrameOracle) :
    ∀ (m s c : Nat), ∀ e ∈ runFrames ra oracles s m c, isAddEvent e = true
  | 0, s, c => by intro e he; simp [runFrames] at he
  | m + 1, s, c => by
    intro e he
    simp only [runFrames] at he
    rcases List.mem_append.mp he with h | h
    · exact frameEvents_adds ra (oracles s) s c e h
    · exact runFrames_adds ra oracles m (s + 1) _ e h

theorem statusList_eq_nil (tr : List Event)
    (h : ∀ e ∈ tr, isAddEvent e = true) : statusList tr = [] := by
  induction tr with
  | nil => rfl
  | cons a l ih =>
    have ha := h a (List.mem_cons_self a l)
    have hl := fun e he => h e (List.mem_cons_of_mem a he)
    cases a with
    | setStatus s => simp [isAddEvent] at ha
    | addVehicle v =>
      show statusList l = []
      exact ih hl
    | addPlate p =>
      show statusList l = []
      exact ih hl

theorem statusAt_go_adds (l : List Event) (st : Status)
    (h : ∀ e ∈ l, isAddEvent e = true) :
    l.foldl
        (fun st e =>
          match e with
          | .setStatus s => s
          | _ => st)
        st = st := by
  induction l generalizing st with
  | nil => rfl
  | cons a l ih =>
    have ha := h a (List.mem_cons_self a l)
    have hl := fun e he => h e (List.mem_cons_of_mem a he)
    cases a with
    | setStatus s => simp [isAddEvent] at ha
    | addVehicle v => exact ih st hl
    | addPlate p => exact ih st hl

theorem statusList_cons_set (s : Status) (l : List Event) :
    statusList (Event.setStatus s :: l) = s :: statusList l := rfl

theorem statusList_append (l1 l2 : List Event) :
    statusList (l1 ++ l2) = statusList l1 ++ statusList l2 :=
  List.filterMap_append l1 l2 _

theorem vehicleRows_append (l1 l2 : List Event) :
    vehicleRows (l1 ++ l2) = vehicleRows l1 ++ vehicleRows l2 :=
  List.filterMap_append l1 l2 _

theorem plateRows_append (l1 l2 : List Event) :
    plateRows (l1 ++ l2) = plateRows l1 ++ plateRows l2 :=
  List.filterMap_append l1 l2 _

theorem statusAt_cons_set (s : Status) (l : List Event)
    (h : ∀ e ∈ l, isAddEvent e = true) :
    statusAt (Event.setStatus s :: l) = s :=
  statusAt_go_adds l s h

/-- **C2**.  Fatal only on extraction: with the incident found, a raised
frame extraction produces exactly the status writes
`processing, failed` and no rows; and whenever extraction succeeds — for
every behavior of the per-frame detection, OCR and locator oracles — the
status writes are exactly `processing, completed`, so no other failure
ever sets the status to `failed`.  (The status before the trace is
`pending`: `statusAt [] = pending` by definition.) -/
theorem extraction_only_fatal (ra : Bool) (oracles : Nat → FrameOracle) :
    (∀ e : Unit,
      process_incident_video true (.error e) ra oracles =
        [Event.setStatus Status.processing, Event.setStatus Status.failed] ∧
      vehicleRows (process_incident_video true (.error e) ra oracles) = [] ∧
      plateRows (process_incident_video true (.error e) ra oracles) = []) ∧
    (∀ n : Nat,
      statusList (process_incident_video true (.ok n) ra oracles) =
        [Status.processing, Status.completed]) := by
  constructor
  · intro e
    exact ⟨rfl, rfl, rfl⟩
  · intro n
    have hnil : statusList (runFrames ra oracles 0 n 0) = [] :=
      statusList_eq_nil _ (runFrames_adds ra oracles n 0 0)
    show statusList (Event.setStatus Status.processing ::
        (runFrames ra oracles 0 n 0 ++ [Event.setStatus Status.completed])) =
      [Status.processing, Status.completed]
    rw [statusList_cons_set, statusList_append, hnil]
    rfl

/-- **C6**.  Status-phase invariant: whenever a run's trace inserts a
`DetectedVehicle` or `LicensePlate` row, the incident status at that
moment is `processing` — no row is written before the status leaves
`pending` (the trace is empty when the incident is missing, and rows
only follow the `processing` write) nor after a terminal status is
written. -/
theorem rows_written_while_processing (incidentFound : Bool)
    (extraction : Except Unit Nat) (ra : Bool) (oracles : Nat → FrameOracle)
    (k : Nat) (e : Event)
    (hk : (process_incident_video incidentFound extraction ra oracles)[k]? = some e)
    (he : isAddEvent e = true) :
    statusAt ((process_incident_video incidentFound extraction ra oracles).take k) =
      Status.processing := by
  cases incidentFound with
  | false => simp [process_incident_video] at hk
  | true =>
    rcases extraction with u | n
    · have htr : process_incident_video true (.error u) ra oracles =
          [Event.setStatus Status.processing, Event.setStatus Status.failed] := rfl
      rw [htr] at hk
      match k, hk with
      | 0, hk =>
        simp at hk
        subst hk
        simp [isAddEvent] at he
      | 1, hk =>
        simp at hk
        subst hk
        simp [isAddEvent] at he
      | m + 2, hk => simp at hk
    · have htr : process_incident_video true (.ok n) ra oracles =
          Event.setStatus Status.processing ::
            (runFrames ra oracles 0 n 0 ++ [Event.setStatus Status.completed]) := rfl
      rw [htr] at hk ⊢
      match k, hk with
      | 0, hk =>
        simp at hk
        subst hk
        simp [isAddEvent] at he
      | j + 1, hk =>
        rw [List.getElem?_cons_succ] at hk
        have hadds := runFrames_adds ra oracles n 0 0
        have hj : j < (runFrames ra oracles 0 n 0).length := by
          rcases Nat.lt_trichotomy j (runFrames ra oracles 0 n 0).length with
            h | h | h
          · exact h
          · exfalso
            rw [List.getElem?_append_right (le_of_eq h.symm)] at hk
            rw [h, Nat.sub_self] at hk
            simp at hk
            subst hk
            simp [isAddEvent] at he
          · exfalso
            rw [List.getElem?_append_right (le_of_lt h)] at hk
            rw [List.getElem?_eq_none (by simp; omega)] at hk
            simp at hk
        rw [List.take_succ_cons,
          List.take_append_of_le_length (le_of_lt hj)]
        exact statusAt_cons_set Status.processing _
          (fun e2 he2 => hadds e2 (List.take_subset j _ he2))

theorem vehicleRows_cons_set (s : Status) (l : List Event) :
    vehicleRows (Event.setStatus s :: l) = vehicleRows l := rfl

theorem vehicleRows_cons_plate (p : PlateRow) (l : List Event) :
    vehicleRows (Event.addPlate p :: l) = vehicleRows l := rfl

theorem vehicleRows_cons_vehicle (v : VehicleRow) (l : List Event) :
    vehicleRows (Event.addVehicle v :: l) = v :: vehicleRows l := rfl

theorem plateRows_cons_set (s : Status) (l : List Event) :
    plateRows (Event.setStatus s :: l) = plateRows l := rfl

theorem mem_vehicleRows_of (tr : List Event) (v : VehicleRow)
    (h : Event.addVehicle v ∈ tr) : v ∈ vehicleRows tr :=
  List.mem_filterMap.mpr ⟨_, h, rfl⟩

theorem mem_plateRows_of (tr : List Event) (p : PlateRow)
    (h : Event.addPlate p ∈ tr) : p ∈ plateRows tr :=
  List.mem_filterMap.mpr ⟨_, h, rfl⟩

theorem vehicleRows_vehicleUnit (ra : Bool) (o : FrameOracle) (i k c : Nat)
    (d : Detection) :
    vehicleRows (vehicleUnit ra o i k c d).1 = [mkVRow c i d] := by
  unfold vehicleUnit
  split
  · rfl
  · split
    · split
      · rfl
      · rfl
    · rfl

theorem vehicleRows_regionLoop (ra : Bool) (o : FrameOracle) (i : Nat) :
    ∀ (rg : List BBox) (k c : Nat),
      vehicleRows (regionLoop ra o i rg k c).1 = []
  | [], _, _ => rfl
  | b :: rest, k, c => by
    unfold regionLoop
    split
    · rfl
    · split
      · split
        · show vehicleRows (Event.addPlate _ :: _) = []
          rw [vehicleRows_cons_plate]
          exact vehicleRows_regionLoop ra o i rest (k + 1) (c + 1)
        · exact vehicleRows_regionLoop ra o i rest (k + 1) c
      · exact vehicleRows_regionLoop ra o i rest (k + 1) c

theorem vehicleRows_generalBlock (ra : Bool) (o : FrameOracle) (i c : Nat) :
    vehicleRows (generalBlock ra o i c).1 = [] := by
  unfold generalBlock
  split
  · split
    · rfl
    · exact vehicleRows_regionLoop ra o i _ 0 c
  · rfl

theorem vehicleRows_vehicleLoop (ra : Bool) (o : FrameOracle) (i : Nat) :
    ∀ (ds : List Detection) (k c : Nat) (v : VehicleRow),
      v ∈ vehicleRows (vehicleLoop ra o i ds k c).1 → v.frame_timestamp = i
  | [], _, _, v => by intro hv; simp [vehicleLoop, vehicleRows] at hv
  | d :: rest, k, c, v => by
    intro hv
    simp only [vehicleLoop] at hv
    rw [vehicleRows_append, vehicleRows_vehicleUnit] at hv
    rcases List.mem_append.mp hv with h | h
    · rw [List.mem_singleton.mp h]
      rfl
    · exact vehicleRows_vehicleLoop ra o i rest (k + 1) _ v h

theorem vehicleLoop_head_mem (ra : Bool) (o : FrameOracle) (i : Nat)
    (d : Detection) (rest : List Detection) (k c : Nat) :
    mkVRow c i d ∈ vehicleRows (vehicleLoop ra o i (d :: rest) k c).1 := by
  simp only [vehicleLoop]
  rw [vehicleRows_append, vehicleRows_vehicleUnit]
  exact List.mem_append.mpr (Or.inl (List.mem_singleton.mpr rfl))

theorem vehicleRows_frameEvents_inv (ra : Bool) (o : FrameOracle) (i c : Nat)
    (v : VehicleRow) (hv : v ∈ vehicleRows (frameEvents ra o i c).1) :
    v.frame_timestamp = i ∧ ∃ ds, o.detect = .ok ds := by
  unfold frameEvents at hv
  split at hv
  · simp [vehicleRows] at hv
  · next ds heq =>
    simp only [] at hv
    rw [vehicleRows_append, vehicleRows_generalBlock, List.append_nil] at hv
    exact ⟨vehicleRows_vehicleLoop ra o i ds 0 c v hv, ds, heq⟩

theorem frameEvents_mem_vehicle (ra : Bool) (o : FrameOracle) (i c : Nat)
    (d : Detection) (ds : List Detection) (h : o.detect = .ok (d :: ds)) :
    mkVRow c i d ∈ vehicleRows (frameEvents ra o i c).1 := by
  unfold frameEvents
  rw [h]
  simp only []
  rw [vehicleRows_append, vehicleRows_generalBlock, List.append_nil]
  exact vehicleLoop_head_mem ra o i d ds 0 c

theorem runFrames_vrows_inv (ra : Bool) (oracles : Nat → FrameOracle) :
    ∀ (m s c : Nat) (v : VehicleRow),
      v ∈ vehicleRows (runFrames ra oracles s m c) →
      s ≤ v.frame_timestamp ∧ v.frame_timestamp < s + m ∧
        ∃ ds, (oracles v.frame_timestamp).detect = .ok ds
  | 0, s, c, v => by intro hv; simp [runFrames, vehicleRows] at hv
  | m + 1, s, c, v => by
    intro hv
    simp only [runFrames] at hv
    rw [vehicleRows_append] at hv
    rcases List.mem_append.mp hv with h | h
    · obtain ⟨hf, hds⟩ := vehicleRows_frameEvents_inv ra (oracles s) s c v h
      refine ⟨by omega, by omega, ?_⟩
      rw [hf]
      exact hds
    · obtain ⟨h1, h2, h3⟩ := runFrames_vrows_inv ra oracles m (s + 1) _ v h
      exact ⟨by omega, by omega, h3⟩

theorem runFrames_vrows_exists (ra : Bool) (oracles : Nat → FrameOracle) :
    ∀ (m s c i : Nat) (d : Detection) (ds : List Detection),
      s ≤ i → i < s + m → (oracles i).detect = .ok (d :: ds) →
      ∃ v ∈ vehicleRows (runFrames ra oracles s m c), v.frame_timestamp = i
  | 0, s, c, i, d, ds => by
    intro h1 h2 _
    omega
  | m + 1, s, c, i, d, ds => by
    intro h1 h2 h3
    rcases Nat.eq_or_lt_of_le h1 with rfl | hlt
    · refine ⟨mkVRow c s d, ?_, rfl⟩
      simp only [runFrames]
      rw [vehicleRows_append]
      exact List.mem_append.mpr
        (Or.inl (frameEvents_mem_vehicle ra (oracles s) s c d ds h3))
    · obtain ⟨v, hv, hvf⟩ :=
        runFrames_vrows_exists ra oracles m (s + 1)
          (frameEvents ra (oracles s) s c).2 i d ds hlt (by omega) h3
      refine ⟨v, ?_, hvf⟩
      simp only [runFrames]
      rw [vehicleRows_append]
      exact List.mem_append.mpr (Or.inr hv)

/-- `Except.isOk` for oracle units. -/
def exIsOk {α : Type} : Except Unit α → Bool
  | .ok _ => true
  | .error _ => false

/-- **C1**.  Per-frame failure isolation: if exactly one frame's
detection step raises while every other frame's units of work succeed
(with at least one detection each), the failing frame is skipped, the
loop continues, the final status is `completed`, and vehicle detection
rows exist for every frame except the failing one. -/
theorem frame_failure_isolated (ra : Bool) (oracles : Nat → FrameOracle)
    (n j : Nat) (hj : j < n) (hfail : (oracles j).detect = .error ())
    (hok : ∀ i, i < n → i ≠ j →
      ∃ ds, (oracles i).detect = .ok ds ∧ ds ≠ [])
    (hunits : ∀ i, i < n → i ≠ j →
      exIsOk (oracles i).locate = true ∧
      (∀ k, exIsOk ((oracles i).vehicleOCR k) = true) ∧
      (∀ k, exIsOk ((oracles i).regionOCR k) = true)) :
    statusAt (process_incident_video true (.ok n) ra oracles) =
      Status.completed ∧
    (∀ i, i < n → i ≠ j →
      ∃ v ∈ vehicleRows (process_incident_video true (.ok n) ra oracles),
        v.frame_timestamp = i) ∧
    (∀ v ∈ vehicleRows (process_incident_video true (.ok n) ra oracles),
      v.frame_timestamp ≠ j) := by
  refine ⟨?_, ?_, ?_⟩
  · show statusAt (Event.setStatus Status.processing ::
      (runFrames ra oracles 0 n 0 ++ [Event.setStatus Status.completed])) = _
    unfold statusAt
    rw [List.foldl_cons, List.foldl_append]
    rfl
  · intro i hi hij
    obtain ⟨ds, hds, hne⟩ := hok i hi hij
    rcases ds with _ | ⟨d, rest⟩
    · exact absurd rfl hne
    obtain ⟨v, hv, hvf⟩ :=
      runFrames_vrows_exists ra oracles n 0 0 i d rest (by omega) (by omega) hds
    refine ⟨v, ?_, hvf⟩
    show v ∈ vehicleRows (Event.setStatus Status.processing ::
      (runFrames ra oracles 0 n 0 ++ [Event.setStatus Status.completed]))
    rw [vehicleRows_cons_set, vehicleRows_append]
    exact List.mem_append.mpr (Or.inl hv)
  · intro v hv
    have hv' : v ∈ vehicleRows (runFrames ra oracles 0 n 0) := by
      rw [show process_incident_video true (.ok n) ra oracles =
          Event.setStatus Status.processing ::
            (runFrames ra oracles 0 n 0 ++ [Event.setStatus Status.completed])
          from rfl, vehicleRows_cons_set, vehicleRows_append] at hv
      rcases List.mem_append.mp hv with h | h
      · exact h
      · simp [vehicleRows] at h
    obtain ⟨-, -, ds, h3⟩ := runFrames_vrows_inv ra oracles n 0 0 v hv'
    intro hvj
    rw [hvj, hfail] at h3
    simp at h3

/-- Oracles for the C1 witness: frame 1's detection step raises, frame
0 yields one car detection, all OCR and locator units succeed. -/
def c1Oracles : Nat → FrameOracle := fun i =>
  if i = 1 then
    { detect := .error (), vehicleOCR := fun _ => .ok [],
      locate := .ok [], regionOCR := fun _ => .ok [] }
  else
    { detect := .ok [⟨"car", 1, ⟨0, 0, 1, 1⟩, none⟩],
      vehicleOCR := fun _ => .ok [], locate := .ok [],
      regionOCR := fun _ => .ok [] }

/-- Witness for **C1**: a two-frame run in which frame 1's detection
raises and frame 0 succeeds with one detection. -/
theorem frame_failure_isolated_witness :
    statusAt (process_incident_video true (.ok 2) true c1Oracles) =
      Status.completed ∧
    (∀ i, i < 2 → i ≠ 1 →
      ∃ v ∈ vehicleRows (process_incident_video true (.ok 2) true c1Oracles),
        v.frame_timestamp = i) ∧
    (∀ v ∈ vehicleRows (process_incident_video true (.ok 2) true c1Oracles),
      v.frame_timestamp ≠ 1) := by
  refine frame_failure_isolated true c1Oracles 2 1 (by omega) rfl ?_ ?_
  · intro i hi hij
    interval_cases i
    · exact ⟨[⟨"car", 1, ⟨0, 0, 1, 1⟩, none⟩], rfl, by simp⟩
    · exact absurd rfl hij
  · intro i hi hij
    interval_cases i
    · exact ⟨rfl, fun k => rfl, fun k => rfl⟩
    · exact absurd rfl hij

/-- Oracle for the C6 witness: one frame with one car detection. -/
def c6Oracle : Nat → FrameOracle := fun _ =>
  { detect := .ok [⟨"car", 1, ⟨0, 0, 1, 1⟩, none⟩],
    vehicleOCR := fun _ => .ok [], locate := .ok [],
    regionOCR := fun _ => .ok [] }

/-- Witness for **C6**: in a one-frame run the vehicle row inserted at
trace position 1 sees status `processing`. -/
theorem rows_written_while_processing_witness :
    statusAt ((process_incident_video true (.ok 1) false c6Oracle).take 1) =
      Status.processing :=
  rows_written_while_processing true (.ok 1) false c6Oracle 1
    (Event.addVehicle (mkVRow 0 0 ⟨"car", 1, ⟨0, 0, 1, 1⟩, none⟩)) rfl rfl

theorem frameEvents_sub_runFrames (ra : Bool) (oracles : Nat → FrameOracle) :
    ∀ (m s c f : Nat), s ≤ f → f < s + m →
      ∃ c2, ∀ e ∈ (frameEvents ra (oracles f) f c2).1,
        e ∈ runFrames ra oracles s m c
  | 0, s, c, f => by
    intro h1 h2
    omega
  | m + 1, s, c, f => by
    intro h1 h2
    rcases Nat.eq_or_lt_of_le h1 with rfl | hlt
    · refine ⟨c, fun e he => ?_⟩
      simp only [runFrames]
      exact List.mem_append.mpr (Or.inl he)
    · obtain ⟨c2, hsub⟩ := frameEvents_sub_runFrames ra oracles m (s + 1)
        (frameEvents ra (oracles s) s c).2 f hlt (by omega)
      refine ⟨c2, fun e he => ?_⟩
      simp only [runFrames]
      exact List.mem_append.mpr (Or.inr (hsub e he))

theorem mem_trace_of_runFrames (ra : Bool) (oracles : Nat → FrameOracle)
    (n : Nat) (e : Event) (h : e ∈ runFrames ra oracles 0 n 0) :
    e ∈ process_incident_video true (.ok n) ra oracles :=
  List.mem_cons_of_mem _ (List.mem_append.mpr (Or.inl h))

/-- The effects of a frame whose detection yields one vehicle whose crop
read succeeds with `p`, and whose whole-frame path locates one region
whose read succeeds with `q`. -/
theorem frameEvents_assoc_eq (o : FrameOracle) (f c2 : Nat) (v : Detection)
    (items1 items2 : List OCRItem) (region : BBox) (p q : PlateResult)
    (hdet : o.detect = .ok [v]) (hocr1 : o.vehicleOCR 0 = .ok items1)
    (hcrop1 : cropPos v.bounding_box = true)
    (hread1 : read_plate_text true true (.ok items1) = some p)
    (hloc : o.locate = .ok [region]) (hocr2 : o.regionOCR 0 = .ok items2)
    (hcrop2 : cropPos region = true)
    (hread2 : read_plate_text true true (.ok items2) = some q) :
    (frameEvents true o f c2).1 =
      [Event.addVehicle (mkVRow c2 f v),
       Event.addPlate
         { plate_id := c2 + 1, detection_id := some c2,
           plate_number := p.plate_number, confidence := p.confidence,
           frame_timestamp := f, bounding_box := p.bounding_box },
       Event.addPlate
         { plate_id := c2 + 2, detection_id := none,
           plate_number := q.plate_number, confidence := q.confidence,
           frame_timestamp := f, bounding_box := q.bounding_box }] := by
  simp [frameEvents, vehicleLoop, vehicleUnit, generalBlock, regionLoop,
    hdet, hocr1, hcrop1, hread1, hloc, hocr2, hcrop2, hread2]

/-- **C3**.  Plate-to-vehicle association: on a frame with one vehicle
detection whose crop read succeeds, the plate read from the crop is
persisted with `detection_id` equal to that vehicle row's identifier,
while the whole-frame locator read is persisted with `detection_id`
null; both rows exist for the same frame as distinct rows with no
deduplication (even when the two reads carry the same text). -/
theorem plate_association (oracles : Nat → FrameOracle) (n f : Nat)
    (v : Detection) (items1 items2 : List OCRItem) (region : BBox)
    (p q : PlateResult) (hf : f < n)
    (hdet : (oracles f).detect = .ok [v])
    (hocr1 : (oracles f).vehicleOCR 0 = .ok items1)
    (hcrop1 : cropPos v.bounding_box = true)
    (hread1 : read_plate_text true true (.ok items1) = some p)
    (hloc : (oracles f).locate = .ok [region])
    (hocr2 : (oracles f).regionOCR 0 = .ok items2)
    (hcrop2 : cropPos region = true)
    (hread2 : read_plate_text true true (.ok items2) = some q) :
    ∃ vr ∈ vehicleRows (process_incident_video true (.ok n) true oracles),
      vr.frame_timestamp = f ∧
      ∃ pr1 ∈ plateRows (process_incident_video true (.ok n) true oracles),
        ∃ pr2 ∈ plateRows (process_incident_video true (.ok n) true oracles),
          pr1.frame_timestamp = f ∧
          pr1.detection_id = some vr.detection_id ∧
          pr1.plate_number = p.plate_number ∧
          pr2.frame_timestamp = f ∧
          pr2.detection_id = none ∧
          pr2.plate_number = q.plate_number ∧
          pr1.plate_id ≠ pr2.plate_id := by
  obtain ⟨c2, hsub⟩ :=
    frameEvents_sub_runFrames true oracles n 0 0 f (by omega) (by omega)
  have hfe := frameEvents_assoc_eq (oracles f) f c2 v items1 items2 region
    p q hdet hocr1 hcrop1 hread1 hloc hocr2 hcrop2 hread2
  have hm1 : Event.addVehicle (mkVRow c2 f v) ∈
      runFrames true oracles 0 n 0 := by
    refine hsub _ ?_
    rw [hfe]
    simp
  have hm2 : Event.addPlate
      { plate_id := c2 + 1, detection_id := some c2,
        plate_number := p.plate_number, confidence := p.confidence,
        frame_timestamp := f, bounding_box := p.bounding_box } ∈
      runFrames true oracles 0 n 0 := by
    refine hsub _ ?_
    rw [hfe]
    simp
  have hm3 : Event.addPlate
      { plate_id := c2 + 2, detection_id := none,
        plate_number := q.plate_number, confidence := q.confidence,
        frame_timestamp := f, bounding_box := q.bounding_box } ∈
      runFrames true oracles 0 n 0 := by
    refine hsub _ ?_
    rw [hfe]
    simp
  refine ⟨mkVRow c2 f v,
    mem_vehicleRows_of _ _ (mem_trace_of_runFrames true oracles n _ hm1),
    rfl, _,
    mem_plateRows_of _ _ (mem_trace_of_runFrames true oracles n _ hm2), _,
    mem_plateRows_of _ _ (mem_trace_of_runFrames true oracles n _ hm3),
    rfl, rfl, rfl, rfl, rfl, rfl, by simp⟩

/-- Oracle for the C3 witness: one frame, one car detection at
`(10,20)-(30,40)` whose crop reads `AB123`, and one located region
whose read yields `CD456`. -/
def c3Oracle : Nat → FrameOracle := fun _ =>
  { detect := .ok [⟨"car", 1, ⟨10, 20, 30, 40⟩, none⟩],
    vehicleOCR := fun _ =>
      .ok [⟨[(0, 0), (2, 0), (2, 1), (0, 1)], "AB123".toList, 1⟩],
    locate := .ok [⟨5, 6, 9, 8⟩],
    regionOCR := fun _ =>
      .ok [⟨[(1, 1), (3, 1), (3, 2), (1, 2)], "CD456".toList, 1⟩] }

/-- Witness for **C3** on the concrete one-frame run of `c3Oracle`. -/
theorem plate_association_witness :
    ∃ vr ∈ vehicleRows (process_incident_video true (.ok 1) true c3Oracle),
      vr.frame_timestamp = 0 ∧
      ∃ pr1 ∈ plateRows (process_incident_video true (.ok 1) true c3Oracle),
        ∃ pr2 ∈ plateRows (process_incident_video true (.ok 1) true c3Oracle),
          pr1.frame_timestamp = 0 ∧
          pr1.detection_id = some vr.detection_id ∧
          pr1.plate_number = "AB123".toList ∧
          pr2.frame_timestamp = 0 ∧
          pr2.detection_id = none ∧
          pr2.plate_number = "CD456".toList ∧
          pr1.plate_id ≠ pr2.plate_id :=
  plate_association c3Oracle 1 0 ⟨"car", 1, ⟨10, 20, 30, 40⟩, none⟩
    [⟨[(0, 0), (2, 0), (2, 1), (0, 1)], "AB123".toList, 1⟩]
    [⟨[(1, 1), (3, 1), (3, 2), (1, 2)], "CD456".toList, 1⟩]
    ⟨5, 6, 9, 8⟩ ⟨"AB123".toList, 1, ⟨0, 0, 2, 1⟩⟩
    ⟨"CD456".toList, 1, ⟨1, 1, 3, 2⟩⟩
    (by omega) rfl rfl rfl rfl rfl rfl rfl rfl

theorem read_plate_text_box (it : OCRItem) (p : PlateResult)
    (h : read_plate_text true true (.ok [it]) = some p) :
    ∀ p0 ps, it.points = p0 :: ps → p.bounding_box = boxFromPoints p0 ps := by
  intro p0 ps hpts
  obtain ⟨r, rs, p0', ps', hocr, hpts', -, -, hbox, -⟩ :=
    read_plate_text_some true true (.ok [it]) p h
  simp only [Except.ok.injEq, List.cons.injEq] at hocr
  obtain ⟨h1, h2⟩ := hocr
  subst h1
  rw [← h2] at hpts'
  simp only [bestItem, List.foldl_nil] at hpts'
  rw [hpts] at hpts'
  simp only [List.cons.injEq] at hpts'
  obtain ⟨h3, h4⟩ := hpts'
  rw [hbox, h3, h4]

/-- **C10** (implicit).  Plate bounding boxes are crop-local: on both
the vehicle-crop path and the whole-frame locator path, the persisted
`LicensePlate` bounding box equals exactly the box `read_plate_text`
computed over the cropped sub-image — the min/max box of the OCR
result's own points — and is never translated by the crop's origin
(the vehicle box or locator region plays no part in it). -/
theorem plate_box_crop_local (oracles : Nat → FrameOracle) (n f : Nat)
    (v : Detection) (it1 it2 : OCRItem) (region : BBox)
    (p q : PlateResult) (hf : f < n)
    (hdet : (oracles f).detect = .ok [v])
    (hocr1 : (oracles f).vehicleOCR 0 = .ok [it1])
    (hcrop1 : cropPos v.bounding_box = true)
    (hread1 : read_plate_text true true (.ok [it1]) = some p)
    (hloc : (oracles f).locate = .ok [region])
    (hocr2 : (oracles f).regionOCR 0 = .ok [it2])
    (hcrop2 : cropPos region = true)
    (hread2 : read_plate_text true true (.ok [it2]) = some q) :
    (∃ pr1 ∈ plateRows (process_incident_video true (.ok n) true oracles),
      pr1.frame_timestamp = f ∧ pr1.detection_id.isSome = true ∧
      pr1.bounding_box = p.bounding_box) ∧
    (∃ pr2 ∈ plateRows (process_incident_video true (.ok n) true oracles),
      pr2.frame_timestamp = f ∧ pr2.detection_id = none ∧
      pr2.bounding_box = q.bounding_box) ∧
    (∀ p0 ps, it1.points = p0 :: ps → p.bounding_box = boxFromPoints p0 ps) ∧
    (∀ p0 ps, it2.points = p0 :: ps → q.bounding_box = boxFromPoints p0 ps) := by
  obtain ⟨c2, hsub⟩ :=
    frameEvents_sub_runFrames true oracles n 0 0 f (by omega) (by omega)
  have hfe := frameEvents_assoc_eq (oracles f) f c2 v [it1] [it2] region
    p q hdet hocr1 hcrop1 hread1 hloc hocr2 hcrop2 hread2
  have hm2 : Event.addPlate
      { plate_id := c2 + 1, detection_id := some c2,
        plate_number := p.plate_number, confidence := p.confidence,
        frame_timestamp := f, bounding_box := p.bounding_box } ∈
      runFrames true oracles 0 n 0 := by
    refine hsub _ ?_
    rw [hfe]
    simp
  have hm3 : Event.addPlate
      { plate_id := c2 + 2, detection_id := none,
        plate_number := q.plate_number, confidence := q.confidence,
        frame_timestamp := f, bounding_box := q.bounding_box } ∈
      runFrames true oracles 0 n 0 := by
    refine hsub _ ?_
    rw [hfe]
    simp
  refine ⟨⟨_, mem_plateRows_of _ _ (mem_trace_of_runFrames true oracles n _ hm2),
      rfl, rfl, rfl⟩,
    ⟨_, mem_plateRows_of _ _ (mem_trace_of_runFrames true oracles n _ hm3),
      rfl, rfl, rfl⟩,
    read_plate_text_box it1 p hread1, read_plate_text_box it2 q hread2⟩

/-- Oracle for the C10 witness: the vehicle box has origin `(100,50)`
and the locator region origin `(40,60)`, while the OCR points are small
crop-local coordinates. -/
def c10Oracle : Nat → FrameOracle := fun _ =>
  { detect := .ok [⟨"truck", 1, ⟨100, 50, 300, 200⟩, none⟩],
    vehicleOCR := fun _ =>
      .ok [⟨[(5, 5), (20, 5), (20, 10), (5, 10)], "XY789".toList, 1⟩],
    locate := .ok [⟨40, 60, 80, 90⟩],
    regionOCR := fun _ =>
      .ok [⟨[(2, 3), (12, 3), (12, 7), (2, 7)], "QW321".toList, 1⟩] }

/-- Witness for **C10**: the persisted boxes are the crop-local OCR
boxes `(5,5)-(20,10)` and `(2,3)-(12,7)`, not translated by the vehicle
box origin `(100,50)` or the region origin `(40,60)`. -/
theorem plate_box_crop_local_witness :
    (∃ pr1 ∈ plateRows (process_incident_video true (.ok 1) true c10Oracle),
      pr1.frame_timestamp = 0 ∧ pr1.detection_id.isSome = true ∧
      pr1.bounding_box = (⟨5, 5, 20, 10⟩ : BBox)) ∧
    (∃ pr2 ∈ plateRows (process_incident_video true (.ok 1) true c10Oracle),
      pr2.frame_timestamp = 0 ∧ pr2.detection_id = none ∧
      pr2.bounding_box = (⟨2, 3, 12, 7⟩ : BBox)) ∧
    (∀ p0 ps,
      (⟨[(5, 5), (20, 5), (20, 10), (5, 10)], "XY789".toList, 1⟩ :
          OCRItem).points = p0 :: ps →
      (⟨5, 5, 20, 10⟩ : BBox) = boxFromPoints p0 ps) ∧
    (∀ p0 ps,
      (⟨[(2, 3), (12, 3), (12, 7), (2, 7)], "QW321".toList, 1⟩ :
          OCRItem).points = p0 :: ps →
      (⟨2, 3, 12, 7⟩ : BBox) = boxFromPoints p0 ps) :=
  plate_box_crop_local c10Oracle 1 0 ⟨"truck", 1, ⟨100, 50, 300, 200⟩, none⟩
    ⟨[(5, 5), (20, 5), (20, 10), (5, 10)], "XY789".toList, 1⟩
    ⟨[(2, 3), (12, 3), (12, 7), (2, 7)], "QW321".toList, 1⟩
    ⟨40, 60, 80, 90⟩ ⟨"XY789".toList, 1, ⟨5, 5, 20, 10⟩⟩
    ⟨"QW321".toList, 1, ⟨2, 3, 12, 7⟩⟩
    (by omega) rfl rfl rfl rfl rfl rfl rfl rfl

/-- **C5**.  Frame-sampling count and order: for a source rate `R`, a
target rate `T ≤ R` and `N ≥ 1` decoded frames, `extract_frames` keeps
every `R / T`-th decoded frame in original order (the decimation
interval is 1 when `R = T`), returning exactly `⌈N / (R / T)⌉` frames —
written `(N + R / T - 1) / (R / T)` in truncated division — and its
`j`-th output frame is decoded frame `j * (R / T)`. -/
theorem extract_frames_spec {α : Type} (R T : Nat) (frames : List α)
    (hT : 0 < T) (hTR : T ≤ R) (hN : 1 ≤ frames.length) :
    (extract_frames R T frames).length =
      (frames.length + R / T - 1) / (R / T) ∧
    ∀ j : Nat, (extract_frames R T frames)[j]? = frames[j * (R / T)]? := by
  have hk : 1 ≤ R / T := (Nat.one_le_div_iff hT).mpr hTR
  have hunfold : extract_frames R T frames = sampleLoop (R / T) frames 0 := by
    show sampleLoop (if T < R then R / T else 1) frames 0 =
      sampleLoop (R / T) frames 0
    rcases Nat.lt_or_ge T R with h | h
    · rw [if_pos h]
    · have heq : T = R := le_antisymm hTR h
      rw [if_neg (by omega), heq, Nat.div_self (by omega)]
  constructor
  · rw [hunfold]
    exact sampleLoop_length (R / T) hk frames
  · intro j
    rw [hunfold]
    exact sampleLoop_getElem? (R / T) hk frames j

/-- Witness for **C5**: a 60-frame, 30 fps video sampled at 10 fps keeps
every third frame — 20 frames in all. -/
theorem extract_frames_spec_witness :
    (extract_frames 30 10 (List.range 60)).length =
      ((List.range 60).length + 30 / 10 - 1) / (30 / 10) ∧
    ∀ j : Nat, (extract_frames 30 10 (List.range 60))[j]? =
      (List.range 60)[j * (30 / 10)]? :=
  extract_frames_spec 30 10 (List.range 60) (by decide) (by decide) (by decide)

end Dashcam
